import Mathlib

/-- Shallow embedding of the two comment-stripping passes of this repository
(`simplify_comments.py`, the richer variant, and `simplify_better.py`, the
simpler variant).  Lines are modelled as lists of characters, without their
trailing newline terminator: every test the source performs (`str.strip`,
`startswith`, the `in` substring test and the three regular expressions) is
insensitive to the terminator, and surviving lines are written back
unchanged by `writelines`.  Python whitespace is modelled over the ASCII
range. -/
def SimplifyEmbeddingDoc : Unit := ()

namespace Simplify

/-- Characters treated as whitespace by Python `str.strip()` and by the
regex class `\s` over the ASCII range. -/
def pySpace (c : Char) : Bool :=
  c == ' ' || c == '\t' || c == '\n' || c == '\r' || c == '\x0b' || c == '\x0c'

/-- View a string literal as the list of its characters. -/
def str (s : String) : List Char := s.data

/-- Python `str.strip()`: remove leading and trailing whitespace. -/
def strip (l : List Char) : List Char :=
  ((l.dropWhile pySpace).reverse.dropWhile pySpace).reverse

/-- Python substring containment test `n in h`. -/
def hasSub (n : List Char) : List Char → Bool
  | [] => n.isEmpty
  | c :: t => n.isPrefixOf (c :: t) || hasSub n t

/-- The noise markers of the whole-line regex of `simplify_comments.py`
line 44, in source order. -/
def noiseMarkers : List (List Char) :=
  [str "Method calls:", str "Calls", str "Note:", str "Why:", str "Problem:",
   str "NEW APPROACH:", str "OLD APPROACH:", str "FIXED:", str "Uses",
   str "This demonstrates", str "Benefits:", str "Algorithm:",
   str "Time Complexity:", str "Space Complexity:", str "Pattern:",
   str "Demonstrates:"]

/-- The action-verb markers of the `re.sub` pattern of
`simplify_comments.py` line 48, in source order. -/
def actionMarkers : List (List Char) :=
  [str "Format:", str "Extract", str "Track", str "Record", str "Mark",
   str "Add to", str "Shift", str "Continue", str "Found", str "Insert",
   str "Safe", str "Return", str "Get", str "Set", str "Create",
   str "Update", str "Delete", str "Find", str "Check", str "Display",
   str "Process", str "Handle", str "Show", str "Print"]

/-- Decision procedure for `re.match` of the divider pattern of
`simplify_comments.py` line 39: whitespace, `//`, whitespace, then a run of
at least three `=` characters (a prefix match; nothing is required after
the run).  Greedy matching is exact here because whitespace, `/` and `=`
are pairwise disjoint character classes. -/
def matchDividerC (s : List Char) : Bool :=
  let s1 := s.dropWhile pySpace
  (str "//").isPrefixOf s1 &&
    decide (3 ≤ (((s1.drop 2).dropWhile pySpace).takeWhile (fun c => c == '=')).length)

/-- Decision procedure for `re.match` of the divider pattern of
`simplify_better.py` line 41: whitespace, `//`, whitespace, a run of at
least three `=`, anything, then a closing run of at least three `=` and
optional whitespace reaching the end of the string.  The trailing
requirement is decided on the reversed remainder. -/
def matchDividerB (s : List Char) : Bool :=
  let s1 := s.dropWhile pySpace
  if (str "//").isPrefixOf s1 then
    let s2 := (s1.drop 2).dropWhile pySpace
    if decide (3 ≤ (s2.takeWhile (fun c => c == '=')).length) then
      let v := ((s2.drop 3).reverse.dropWhile pySpace)
      decide (3 ≤ (v.takeWhile (fun c => c == '=')).length)
    else false
  else false

/-- Decision procedure for `re.match` of the noise-prefix pattern of
`simplify_comments.py` line 44: whitespace, `//`, then one of the noise
markers immediately (the pattern has no whitespace class between `//` and
the alternation). -/
def matchNoise (s : List Char) : Bool :=
  let s1 := s.dropWhile pySpace
  (str "//").isPrefixOf s1 && noiseMarkers.any (fun m => m.isPrefixOf (s1.drop 2))

/-- One attempt of the `re.sub` pattern of `simplify_comments.py` line 48
at the current position: whitespace, `//`, whitespace, then one of the
action-verb markers; on success return the remainder after the matched
fragment.  No marker is a prefix of another, so alternation order cannot
change the match. -/
def tryMatchAt (l : List Char) : Option (List Char) :=
  let r := l.dropWhile pySpace
  if (str "//").isPrefixOf r then
    let r2 := (r.drop 2).dropWhile pySpace
    match actionMarkers.find? (fun m => m.isPrefixOf r2) with
    | some m => some (r2.drop m.length)
    | none => none
  else none

/-- Left-to-right scan of `re.sub(pattern, empty, line)`: at each position
try the pattern; on a match delete it and resume after its end, otherwise
keep the character and move on.  The fuel argument only bounds the
recursion; each step consumes at least one character, so `l.length` fuel
is always sufficient. -/
def subActionAux : Nat → List Char → List Char
  | 0, l => l
  | f + 1, l =>
    match tryMatchAt l with
    | some rest => subActionAux f rest
    | none =>
      match l with
      | [] => []
      | c :: t => c :: subActionAux f t

/-- The `re.sub` of `simplify_comments.py` line 48 applied to a whole
line. -/
def subAction (l : List Char) : List Char := subActionAux l.length l

/-- Scan state of `simplify_comments.py`: `in_javadoc` and
`skip_next_blank`. -/
structure StateC where
  inJavadoc : Bool
  skipNextBlank : Bool
  deriving DecidableEq

/-- Scan state of `simplify_better.py`: `in_javadoc`, `in_block_comment`
and `skip_next_blank`. -/
structure StateB where
  inJavadoc : Bool
  inBlockComment : Bool
  skipNextBlank : Bool
  deriving DecidableEq

/-- The loop body of `simplify_comments.py` lines 13-51 for one line:
returns the emitted line, if any, and the next state.  Branches mirror the
source `continue` chain in order: JavaDoc opener, JavaDoc closer, inside
JavaDoc, blank skipped after JavaDoc, divider comment, noise-prefix
comment, and finally emission of the line after the inline `re.sub`. -/
def stepC (line : List Char) (st : StateC) : Option (List Char) × StateC :=
  let stripped := strip line
  if (str "/**").isPrefixOf stripped then
    (none, ⟨true, st.skipNextBlank⟩)
  else if st.inJavadoc && hasSub (str "*/") stripped then
    (none, ⟨false, true⟩)
  else if st.inJavadoc then
    (none, st)
  else if st.skipNextBlank && stripped.isEmpty then
    (none, ⟨st.inJavadoc, false⟩)
  else if matchDividerC stripped then
    (none, ⟨st.inJavadoc, false⟩)
  else if matchNoise stripped then
    (none, ⟨st.inJavadoc, false⟩)
  else
    (some (subAction line), ⟨st.inJavadoc, false⟩)

/-- The loop body of `simplify_better.py` lines 14-45 for one line:
JavaDoc opener, comment closer, inside a comment, blank skipped after a
comment, divider comment, and emission of the unmodified line. -/
def stepB (line : List Char) (st : StateB) : Option (List Char) × StateB :=
  let stripped := strip line
  if (str "/**").isPrefixOf stripped then
    (none, ⟨true, st.inBlockComment, st.skipNextBlank⟩)
  else if (st.inJavadoc || st.inBlockComment) && hasSub (str "*/") stripped then
    (none, ⟨false, false, true⟩)
  else if st.inJavadoc || st.inBlockComment then
    (none, st)
  else if st.skipNextBlank && stripped.isEmpty then
    (none, ⟨st.inJavadoc, st.inBlockComment, false⟩)
  else if matchDividerB stripped then
    (none, ⟨st.inJavadoc, st.inBlockComment, false⟩)
  else
    (some line, ⟨st.inJavadoc, st.inBlockComment, false⟩)

/-- Run the richer variant over a list of lines from a given state. -/
def runC : List (List Char) → StateC → List (List Char)
  | [], _ => []
  | l :: ls, st => ((stepC l st).1).toList ++ runC ls (stepC l st).2

/-- Final state of the richer variant after a list of lines. -/
def runStateC : List (List Char) → StateC → StateC
  | [], st => st
  | l :: ls, st => runStateC ls (stepC l st).2

/-- Run the simpler variant over a list of lines from a given state. -/
def runB : List (List Char) → StateB → List (List Char)
  | [], _ => []
  | l :: ls, st => ((stepB l st).1).toList ++ runB ls (stepB l st).2

/-- Final state of the simpler variant after a list of lines. -/
def runStateB : List (List Char) → StateB → StateB
  | [], st => st
  | l :: ls, st => runStateB ls (stepB l st).2

/-- `simplify_java_file` of `simplify_comments.py`, as the pure line
transform: run from the initial state (both flags false). -/
def simplifyC (lines : List (List Char)) : List (List Char) :=
  runC lines ⟨false, false⟩

/-- `simplify_java_file` of `simplify_better.py`, as the pure line
transform: run from the initial state (all three flags false). -/
def simplifyB (lines : List (List Char)) : List (List Char) :=
  runB lines ⟨false, false, false⟩

/-- Any line whose trimmed content matches the noise-prefix regex is
dropped by the richer variant's loop body, whatever the state. -/
lemma stepC_none_of_noise (l : List Char) (st : StateC)
    (h : matchNoise (strip l) = true) : (stepC l st).1 = none := by
  simp only [stepC]
  repeat' split
  all_goals simp_all

/-- Any line whose trimmed content matches the richer divider regex is
dropped by the richer variant's loop body, whatever the state. -/
lemma stepC_none_of_divider (l : List Char) (st : StateC)
    (h : matchDividerC (strip l) = true) : (stepC l st).1 = none := by
  simp only [stepC]
  repeat' split
  all_goals simp_all

/-- Any line whose trimmed content matches the simpler divider regex is
dropped by the simpler variant's loop body, whatever the state. -/
lemma stepB_none_of_divider (l : List Char) (st : StateB)
    (h : matchDividerB (strip l) = true) : (stepB l st).1 = none := by
  simp only [stepB]
  repeat' split
  all_goals simp_all

/-- The loop body of the simpler variant keeps `in_block_comment` false:
no branch of the source ever assigns it `True`. -/
lemma stepB_inBC_false (l : List Char) (st : StateB)
    (h : st.inBlockComment = false) : ((stepB l st).2).inBlockComment = false := by
  simp only [stepB]
  repeat' split
  all_goals simp_all

/-- Along any run of the simpler variant, `in_block_comment` stays false. -/
lemma runStateB_inBC_false :
    ∀ (lines : List (List Char)) (st : StateB), st.inBlockComment = false →
      (runStateB lines st).inBlockComment = false := by
  intro lines
  induction lines with
  | nil => intro st h; exact h
  | cons l t ih =>
    intro st h
    simp only [runStateB]
    exact ih _ (stepB_inBC_false l st h)

/-- Claim C1.  The inline `re.sub` of the richer variant does not delete
from the marker to the end of the line: on `x = 5; // Set the value` it
deletes only the fragment whitespace-`//`-whitespace-`Set`, producing
`x = 5; the value` rather than the specified `x = 5; ` — the body of the
comment survives as bare non-comment text. -/
theorem c1_inline_sub_eval :
    simplifyC [str "x = 5; // Set the value"] = [str "x = 5; the value"] ∧
    str "x = 5; the value" ≠ str "x = 5; " := by decide

/-- Claim C2, counterexample.  The noise-prefix regex has no whitespace
class between `//` and the markers, so `// Note: this explains things`
(with the customary space) is kept, where the claim says it is dropped. -/
theorem c2_counterexample :
    simplifyC [str "// Note: this explains things"] =
      [str "// Note: this explains things"] := by decide

/-- Claim C2, amended.  A line whose trimmed content is `//` immediately
followed by one of the noise markers (no intervening whitespace) is
dropped whole; with a space between `//` and the marker the line is kept,
and `// Important: keep me` is kept (marker not in the fixed set). -/
theorem c2_noise_amended :
    (∀ (l : List Char) (st : StateC), matchNoise (strip l) = true →
      (stepC l st).1 = none) ∧
    simplifyC [str "//Note: this explains things"] = [] ∧
    simplifyC [str "// Note: this explains things"] =
      [str "// Note: this explains things"] ∧
    simplifyC [str "// Important: keep me"] = [str "// Important: keep me"] :=
  ⟨stepC_none_of_noise, by decide, by decide, by decide⟩

/-- Claim C2, witness for the amended theorem: `//Note:` immediately after
`//` is dropped by the loop body. -/
theorem c2_noise_amended_witness :
    (stepC (str "//Note: this explains things") ⟨false, false⟩).1 = none :=
  c2_noise_amended.1 (str "//Note: this explains things") ⟨false, false⟩ (by decide)

/-- Claim C3, counterexample.  In the richer variant the divider regex is
a prefix match with no closing-run requirement, so a `//` comment with a
single run of three `=` and no closing run is dropped, where the claim
says it is kept in both variants. -/
theorem c3_counterexample :
    simplifyC [str "// === one run only"] = [] := by decide

/-- Claim C3, amended.  The two-sided divider shape (runs of at least
three `=` bounding a possibly-empty label, reaching the end of the trimmed
line) is required only by the simpler variant; the richer variant drops
every `//` comment whose body starts (after optional whitespace) with a
run of at least three `=`, so every simpler-variant divider is also a
richer-variant divider but not conversely: `// ===== SECTION =====` is
dropped by both, `// = not a divider` is kept by both, and
`// === one run only` is kept by the simpler variant yet dropped by the
richer one. -/
theorem c3_divider_amended :
    (∀ s : List Char, matchDividerB s = true → matchDividerC s = true) ∧
    (∀ (l : List Char) (st : StateC), matchDividerC (strip l) = true →
      (stepC l st).1 = none) ∧
    (∀ (l : List Char) (st : StateB), matchDividerB (strip l) = true →
      (stepB l st).1 = none) ∧
    simplifyC [str "// ===== SECTION ====="] = [] ∧
    simplifyB [str "// ===== SECTION ====="] = [] ∧
    simplifyC [str "// = not a divider"] = [str "// = not a divider"] ∧
    simplifyB [str "// = not a divider"] = [str "// = not a divider"] ∧
    simplifyC [str "// === one run only"] = [] ∧
    simplifyB [str "// === one run only"] = [str "// === one run only"] := by
  refine ⟨?_, stepC_none_of_divider, stepB_none_of_divider,
    by decide, by decide, by decide, by decide, by decide, by decide⟩
  intro s h
  simp only [matchDividerB] at h
  simp only [matchDividerC]
  split at h
  · split at h
    · simp_all
    · simp_all
  · simp_all

/-- Claim C3, witness for the amended theorem at concrete inputs. -/
theorem c3_divider_amended_witness :
    matchDividerC (str "// === a ===") = true ∧
    (stepC (str "// ===== SECTION =====") ⟨false, false⟩).1 = none ∧
    (stepB (str "// ===== SECTION =====") ⟨false, false, false⟩).1 = none :=
  ⟨c3_divider_amended.1 (str "// === a ===") (by decide),
   c3_divider_amended.2.1 (str "// ===== SECTION =====") ⟨false, false⟩ (by decide),
   c3_divider_amended.2.2.1 (str "// ===== SECTION =====") ⟨false, false, false⟩ (by decide)⟩

/-- Claim C4.  In `simplify_better.py` the flag `in_block_comment` is
initialized and read but never assigned `True`, so the scanner is never in
block-comment state for a region opened by `/*` without a second `*`: a
whole `/*` ... `*/` block passes through unchanged instead of being
dropped. -/
theorem c4_dead_flag :
    (∀ lines : List (List Char),
      (runStateB lines ⟨false, false, false⟩).inBlockComment = false) ∧
    simplifyB [str "/* note", str "hidden body", str "*/"] =
      [str "/* note", str "hidden body", str "*/"] :=
  ⟨fun lines => runStateB_inBC_false lines ⟨false, false, false⟩ rfl, by decide⟩

/-- Claim C5, counterexample.  A line that both starts with `/**` and
contains `*/` is consumed by the opener check even while inside a block
comment: after `/**` then `/** x */` the richer variant is still in
comment state with the skip-next-blank flag clear, so the following `code`
line is dropped — the claim instead requires the second line to exit the
state with the flag set, which would emit `code`. -/
theorem c5_counterexample :
    runStateC [str "/**", str "/** x */"] ⟨false, false⟩ =
      StateC.mk true false ∧
    simplifyC [str "/**", str "/** x */", str "code"] = [] := by decide

/-- Claim C5, amended.  In both variants, a line processed while inside a
block comment whose trimmed content contains `*/` and does not start with
`/**` is dropped entirely and the state is exited with the skip-next-blank
flag set, even when code follows `*/` on the line; a closer line that
starts with `/**` is instead consumed by the opener check, staying inside
the comment. -/
theorem c5_closer_amended :
    (∀ (l : List Char) (s : Bool), hasSub (str "*/") (strip l) = true →
      (str "/**").isPrefixOf (strip l) = false →
      stepC l ⟨true, s⟩ = (none, ⟨false, true⟩)) ∧
    (∀ (l : List Char) (j b s : Bool), (j || b) = true →
      hasSub (str "*/") (strip l) = true →
      (str "/**").isPrefixOf (strip l) = false →
      stepB l ⟨j, b, s⟩ = (none, ⟨false, false, true⟩)) := by
  constructor
  · intro l s h1 h2
    simp [stepC, h1, h2]
  · intro l j b s hj h1 h2
    simp [stepB, h1, h2, hj]

/-- Claim C5, witness for the amended theorem: a closer line carrying
trailing code is still dropped whole and exits the state. -/
theorem c5_closer_amended_witness :
    stepC (str "*/ int x = 1;") ⟨true, false⟩ = (none, ⟨false, true⟩) ∧
    stepB (str "*/ int x = 1;") ⟨true, false, false⟩ = (none, ⟨false, false, true⟩) :=
  ⟨c5_closer_amended.1 (str "*/ int x = 1;") false (by decide) (by decide),
   c5_closer_amended.2 (str "*/ int x = 1;") true false false rfl (by decide) (by decide)⟩

/-- While the richer variant is inside a comment, the skip-next-blank flag
cannot influence the remaining output: every in-comment branch either
keeps the flag while staying inside or overwrites it on exit. -/
lemma runC_inJ_skip :
    ∀ (ls : List (List Char)) (s s' : Bool),
      runC ls ⟨true, s⟩ = runC ls ⟨true, s'⟩ := by
  intro ls
  induction ls with
  | nil => intro s s'; rfl
  | cons l t ih =>
    intro s s'
    simp only [runC]
    by_cases h1 : (str "/**").isPrefixOf (strip l) = true
    · simp [stepC, h1]
      exact ih s s'
    · by_cases h2 : hasSub (str "*/") (strip l) = true
      · simp [stepC, h1, h2]
      · simp [stepC, h1, h2]
        exact ih s s'

/-- While the simpler variant is inside a JavaDoc comment, the
skip-next-blank flag cannot influence the remaining output. -/
lemma runB_inJ_skip :
    ∀ (ls : List (List Char)) (b s s' : Bool),
      runB ls ⟨true, b, s⟩ = runB ls ⟨true, b, s'⟩ := by
  intro ls
  induction ls with
  | nil => intro b s s'; rfl
  | cons l t ih =>
    intro b s s'
    simp only [runB]
    by_cases h1 : (str "/**").isPrefixOf (strip l) = true
    · simp [stepB, h1]
      exact ih b s s'
    · by_cases h2 : hasSub (str "*/") (strip l) = true
      · simp [stepB, h1, h2]
      · simp [stepB, h1, h2]
        exact ih b s s'

/-- The richer run distributes over concatenation of the input, threading
the state through the first part. -/
lemma runC_append :
    ∀ (xs ys : List (List Char)) (st : StateC),
      runC (xs ++ ys) st = runC xs st ++ runC ys (runStateC xs st) := by
  intro xs
  induction xs with
  | nil => intro ys st; rfl
  | cons l t ih =>
    intro ys st
    simp only [List.cons_append, runC, runStateC, List.append_eq, ih, List.append_assoc]

/-- The simpler run distributes over concatenation of the input, threading
the state through the first part. -/
lemma runB_append :
    ∀ (xs ys : List (List Char)) (st : StateB),
      runB (xs ++ ys) st = runB xs st ++ runB ys (runStateB xs st) := by
  intro xs
  induction xs with
  | nil => intro ys st; rfl
  | cons l t ih =>
    intro ys st
    simp only [List.cons_append, runB, runStateB, List.append_eq, ih, List.append_assoc]

/-- The simpler variant's loop body emits either nothing or the input line
itself, never an edited line. -/
lemma stepB_emit (l : List Char) (st : StateB) :
    (stepB l st).1 = none ∨ (stepB l st).1 = some l := by
  simp only [stepB]
  repeat' split
  all_goals simp

/-- On lines free of openers, dividers, noise prefixes and action-verb
fragments, the richer variant is the identity. -/
lemma runC_clean :
    ∀ lines : List (List Char),
      (∀ l ∈ lines, (str "/**").isPrefixOf (strip l) = false ∧
        matchDividerC (strip l) = false ∧ matchNoise (strip l) = false ∧
        subAction l = l) →
      runC lines ⟨false, false⟩ = lines := by
  intro lines
  induction lines with
  | nil => intro _; rfl
  | cons l t ih =>
    intro h
    obtain ⟨h1, h3, h5, h6⟩ := h l (List.mem_cons_self l t)
    have ht := ih fun x hx => h x (List.mem_cons_of_mem l hx)
    simp only [runC]
    rw [show stepC l ⟨false, false⟩ = (some l, ⟨false, false⟩) by
      simp [stepC, h1, h3, h5, h6]]
    simp [ht]

/-- On lines free of openers and dividers, the simpler variant is the
identity. -/
lemma runB_clean :
    ∀ lines : List (List Char),
      (∀ l ∈ lines, (str "/**").isPrefixOf (strip l) = false ∧
        matchDividerB (strip l) = false) →
      runB lines ⟨false, false, false⟩ = lines := by
  intro lines
  induction lines with
  | nil => intro _; rfl
  | cons l t ih =>
    intro h
    obtain ⟨h1, h4⟩ := h l (List.mem_cons_self l t)
    have ht := ih fun x hx => h x (List.mem_cons_of_mem l hx)
    simp only [runB]
    rw [show stepB l ⟨false, false, false⟩ = (some l, ⟨false, false, false⟩) by
      simp [stepB, h1, h4]]
    simp [ht]

/-- Claim C6.  Blank suppression after a closed doc block: on the spec's
six-line example both variants keep exactly the second blank and `code`;
in general, from a state with the flag set, a blank (after trim) line is
dropped and the flag cleared, while a non-blank line makes the remaining
run identical to the run with the flag already clear — the flag never
suppresses more than the one immediately-following blank line. -/
theorem c6_blank_suppression :
    simplifyC [str "/**", str "foo", str "*/", str "", str "", str "code"] =
      [str "", str "code"] ∧
    simplifyB [str "/**", str "foo", str "*/", str "", str "", str "code"] =
      [str "", str "code"] ∧
    (∀ l : List Char, strip l = [] →
      stepC l ⟨false, true⟩ = (none, ⟨false, false⟩)) ∧
    (∀ l : List Char, strip l = [] →
      stepB l ⟨false, false, true⟩ = (none, ⟨false, false, false⟩)) ∧
    (∀ (l : List Char) (rest : List (List Char)), strip l ≠ [] →
      runC (l :: rest) ⟨false, true⟩ = runC (l :: rest) ⟨false, false⟩) ∧
    (∀ (l : List Char) (rest : List (List Char)), strip l ≠ [] →
      runB (l :: rest) ⟨false, false, true⟩ = runB (l :: rest) ⟨false, false, false⟩) := by
  refine ⟨by decide, by decide, ?_, ?_, ?_, ?_⟩
  · intro l h
    have h1 : (str "/**").isPrefixOf (strip l) = false := by rw [h]; decide
    simp [stepC, h, h1]
    decide
  · intro l h
    have h1 : (str "/**").isPrefixOf (strip l) = false := by rw [h]; decide
    simp [stepB, h, h1]
    decide
  · intro l rest h
    by_cases h1 : (str "/**").isPrefixOf (strip l) = true
    · simp only [runC]
      simp [stepC, h1]
      exact runC_inJ_skip rest true false
    · have hne : (strip l).isEmpty = false := by
        cases hs : strip l with
        | nil => exact absurd hs h
        | cons a t => rfl
      have hstep : stepC l ⟨false, true⟩ = stepC l ⟨false, false⟩ := by
        simp [stepC, h1, hne]
      simp only [runC, hstep]
  · intro l rest h
    by_cases h1 : (str "/**").isPrefixOf (strip l) = true
    · simp only [runB]
      simp [stepB, h1]
      exact runB_inJ_skip rest false true false
    · have hne : (strip l).isEmpty = false := by
        cases hs : strip l with
        | nil => exact absurd hs h
        | cons a t => rfl
      have hstep : stepB l ⟨false, false, true⟩ = stepB l ⟨false, false, false⟩ := by
        simp [stepB, h1, hne]
      simp only [runB, hstep]

/-- Claim C6, witness: a whitespace-only line counts as blank and is the
one suppressed line; a non-blank line is treated as if the flag were
clear. -/
theorem c6_blank_suppression_witness :
    stepC (str " ") ⟨false, true⟩ = (none, ⟨false, false⟩) ∧
    stepB (str " ") ⟨false, false, true⟩ = (none, ⟨false, false, false⟩) ∧
    runC [str "x"] ⟨false, true⟩ = runC [str "x"] ⟨false, false⟩ ∧
    runB [str "x"] ⟨false, false, true⟩ = runB [str "x"] ⟨false, false, false⟩ :=
  ⟨c6_blank_suppression.2.2.1 (str " ") (by decide),
   c6_blank_suppression.2.2.2.1 (str " ") (by decide),
   c6_blank_suppression.2.2.2.2.1 (str "x") [] (by decide),
   c6_blank_suppression.2.2.2.2.2 (str "x") [] (by decide)⟩

/-- Claim C7.  On input whose lines contain no doc-comment opener or
closer, match neither divider regex nor the noise regex, and are untouched
by the inline `re.sub`, each variant is the identity, hence running it
twice equals running it once. -/
theorem c7_idempotent :
    ∀ lines : List (List Char),
      (∀ l ∈ lines, (str "/**").isPrefixOf (strip l) = false ∧
        hasSub (str "*/") (strip l) = false ∧
        matchDividerC (strip l) = false ∧
        matchDividerB (strip l) = false ∧
        matchNoise (strip l) = false ∧
        subAction l = l) →
      simplifyC (simplifyC lines) = simplifyC lines ∧
      simplifyB (simplifyB lines) = simplifyB lines := by
  intro lines h
  have hC : runC lines ⟨false, false⟩ = lines :=
    runC_clean lines fun l hl =>
      ⟨(h l hl).1, (h l hl).2.2.1, (h l hl).2.2.2.2.1, (h l hl).2.2.2.2.2⟩
  have hB : runB lines ⟨false, false, false⟩ = lines :=
    runB_clean lines fun l hl => ⟨(h l hl).1, (h l hl).2.2.2.1⟩
  constructor
  · simp only [simplifyC, hC]
  · simp only [simplifyB, hB]

/-- Claim C7, witness: a plain code line is already simplified. -/
theorem c7_idempotent_witness :
    simplifyC (simplifyC [str "int x = 1;"]) = simplifyC [str "int x = 1;"] ∧
    simplifyB (simplifyB [str "int x = 1;"]) = simplifyB [str "int x = 1;"] :=
  c7_idempotent [str "int x = 1;"] (by decide)

/-- Claim C8.  Each input line contributes at most one output line, and
each run distributes over any split of the input, the second part running
from the state reached after the first: hence surviving lines appear in
the output in their input order, in both variants. -/
theorem c8_order_preservation :
    (∀ (l : List Char) (st : StateC), ((stepC l st).1).toList.length ≤ 1) ∧
    (∀ (l : List Char) (st : StateB), ((stepB l st).1).toList.length ≤ 1) ∧
    (∀ (xs ys : List (List Char)) (st : StateC),
      runC (xs ++ ys) st = runC xs st ++ runC ys (runStateC xs st)) ∧
    (∀ (xs ys : List (List Char)) (st : StateB),
      runB (xs ++ ys) st = runB xs st ++ runB ys (runStateB xs st)) := by
  refine ⟨?_, ?_, runC_append, runB_append⟩
  · intro l st
    cases h : (stepC l st).1 <;> simp
  · intro l st
    cases h : (stepB l st).1 <;> simp

/-- Claim C9.  A line whose trimmed content starts with `/**` and contains
`*/` is consumed by the opener check alone, leaving the scanner inside a
comment with the other flags untouched; every line processed inside a
comment is dropped; in particular `/** a */` followed by `code` yields an
empty output in both variants. -/
theorem c9_oneline_doc :
    (∀ (l : List Char) (s : Bool), (str "/**").isPrefixOf (strip l) = true →
      hasSub (str "*/") (strip l) = true →
      stepC l ⟨false, s⟩ = (none, ⟨true, s⟩)) ∧
    (∀ (l : List Char) (b s : Bool), (str "/**").isPrefixOf (strip l) = true →
      hasSub (str "*/") (strip l) = true →
      stepB l ⟨false, b, s⟩ = (none, ⟨true, b, s⟩)) ∧
    (∀ (l : List Char) (s : Bool), (stepC l ⟨true, s⟩).1 = none) ∧
    (∀ (l : List Char) (b s : Bool), (stepB l ⟨true, b, s⟩).1 = none) ∧
    simplifyC [str "/** a */", str "code"] = [] ∧
    simplifyB [str "/** a */", str "code"] = [] := by
  refine ⟨?_, ?_, ?_, ?_, by decide, by decide⟩
  · intro l s h1 _
    simp [stepC, h1]
  · intro l b s h1 _
    simp [stepB, h1]
  · intro l s
    simp only [stepC]
    repeat' split
    all_goals simp_all
  · intro l b s
    simp only [stepB]
    repeat' split
    all_goals simp_all

/-- Claim C9, witness: the one-line doc comment `/** a */` enters comment
state without emitting, in both variants. -/
theorem c9_oneline_doc_witness :
    stepC (str "/** a */") ⟨false, false⟩ = (none, ⟨true, false⟩) ∧
    stepB (str "/** a */") ⟨false, false, false⟩ = (none, ⟨true, false, false⟩) :=
  ⟨c9_oneline_doc.1 (str "/** a */") false (by decide) (by decide),
   c9_oneline_doc.2.1 (str "/** a */") false false (by decide) (by decide)⟩

/-- Claim C10.  The simpler variant's loop body emits nothing or the input
line unchanged, so its output is a subsequence of its input from any
state. -/
theorem c10_subsequence :
    (∀ (l : List Char) (st : StateB),
      (stepB l st).1 = none ∨ (stepB l st).1 = some l) ∧
    (∀ (lines : List (List Char)) (st : StateB), (runB lines st).Sublist lines) := by
  refine ⟨stepB_emit, ?_⟩
  intro lines
  induction lines with
  | nil => intro st; simp [runB]
  | cons l t ih =>
    intro st
    simp only [runB]
    rcases stepB_emit l st with h | h
    · rw [h]
      simpa using (ih (stepB l st).2).cons l
    · rw [h]
      simpa using (ih (stepB l st).2).cons₂ l

end Simplify
